import Mathlib

/-!
Shallow embedding of the educator progress dashboard (src/src/App.tsx) and
proofs about its roster filtering, progress resolution, row aggregation,
status presentation and CSV snapshot export.

Conventions of the embedding:
* TypeScript arrays become `List`; a JavaScript `Map` (which preserves
  insertion order) becomes an association list, looked up with
  `List.lookup` (a JS `Map` never holds duplicate keys, and all maps built
  here are images of such maps, so first-match lookup agrees).
* `undefined` / `null` become `none`; the optional-chaining operator `?.`
  becomes `Option.bind` and `?? x` becomes `Option.getD x`.
* `Array.prototype.sort(cmp)` (an in-place, stable, comparator sort) is
  embedded as `List.insertionSort` on the comparator's order; the
  comparator `a.exercise_name.localeCompare(b.exercise_name)` is embedded
  as the lexicographic order on strings.
* `Array.prototype.join(sep)` is embedded as `joinSep sep`.
-/

/-- A fetched student: stable id plus display username (App.tsx, the
`Student` shape from `get_students`). -/
structure Student where
  id : Nat
  username : String
deriving DecidableEq

/-- A fetched exercise: its name, used as both label and lookup key
(the `Exercise` shape from `get_exercises`). -/
structure Exercise where
  exercise_name : String
deriving DecidableEq

/-- The progress object nested inside a submission record; its `status`
field may be absent (`status?: string`). -/
structure ExerciseProgress where
  status : Option String
deriving DecidableEq

/-- A submission record as consumed by the dashboard: it minimally exposes
`exerciseProgress?.status` (the `StudentExercise` shape from
`get_student_exercises`); the progress object itself may be absent. -/
structure StudentExercise where
  exerciseProgress : Option ExerciseProgress
deriving DecidableEq

/-- An aggregated table row: `{ username, statuses: Record<string, string |
undefined> }` (App.tsx lines 40-42). The record becomes an association
list whose values are `Option String` (a key can be present with value
`undefined`). -/
structure Row where
  username : String
  statuses : List (String × Option String)
deriving DecidableEq

/-- The order in which `filteredExercises` sorts: the comparator
`(a, b) => a.exercise_name.localeCompare(b.exercise_name)` (App.tsx lines
26-28), embedded as the lexicographic order on exercise names. -/
def exerciseLe (a b : Exercise) : Prop :=
  a.exercise_name ≤ b.exercise_name

instance : DecidableRel exerciseLe := fun a b =>
  inferInstanceAs (Decidable (a.exercise_name ≤ b.exercise_name))

instance : IsTotal Exercise exerciseLe :=
  ⟨fun a b => le_total a.exercise_name b.exercise_name⟩

instance : IsTrans Exercise exerciseLe :=
  ⟨fun _ _ _ hab hbc => le_trans hab hbc⟩

/-- Body of the `filteredExercises` memo once the fetch is ready (App.tsx
lines 19-28). First component: the value the memo returns. Second
component: the contents of the `allExercises` array after the memo ran —
`Array.prototype.sort` sorts in place, and when the allow-list `EXERCISES`
is empty the array being sorted is `allExercises` itself, so the fetched
array ends up reordered; otherwise `filter` allocated a fresh array and
`allExercises` is untouched. -/
def filteredExercisesCore (allExercises : List Exercise)
    (EXERCISES : List String) : List Exercise × List Exercise :=
  let exercises :=
    if EXERCISES.length = 0 then allExercises
    else allExercises.filter (fun exercise =>
      EXERCISES.contains exercise.exercise_name)
  let sorted := List.insertionSort exerciseLe exercises
  (sorted, if EXERCISES.length = 0 then sorted else allExercises)

/-- The `filteredExercises` memo (App.tsx lines 17-29): empty while the
exercise fetch is absent or loading, otherwise the (possibly filtered)
exercise list sorted by name. -/
def filteredExercises (allExercises : Option (List Exercise))
    (isExercisesLoading : Bool) (EXERCISES : List String) : List Exercise :=
  match allExercises, isExercisesLoading with
  | some l, false => (filteredExercisesCore l EXERCISES).1
  | _, _ => []

/-- Contents of the fetched `allExercises` array after the
`filteredExercises` memo ran (see `filteredExercisesCore`); in the
absent/loading branches the memo returns early and touches nothing. -/
def allExercisesAfterFilter (allExercises : Option (List Exercise))
    (isExercisesLoading : Bool) (EXERCISES : List String) :
    Option (List Exercise) :=
  match allExercises, isExercisesLoading with
  | some l, false => some (filteredExercisesCore l EXERCISES).2
  | x, _ => x

/-- The `filteredStudents` memo (App.tsx lines 34-38): empty while the
student fetch is absent or loading, otherwise the fetched students whose
username is in the configured `STUDENTS` set. Note there is no
empty-allow-list guard here, unlike the exercise filter. -/
def filteredStudents (allStudents : Option (List Student))
    (isStudentsLoading : Bool) (STUDENTS : List String) : List Student :=
  match allStudents, isStudentsLoading with
  | some l, false =>
    l.filter (fun student => STUDENTS.contains student.username)
  | _, _ => []

/-- The `handleRowComputed` upsert (App.tsx lines 44-56): replace or add a
row by username, keeping every row of a different username. -/
def handleRowComputed (row : Row) (tableData : List Row) : List Row :=
  tableData.filter (fun r => r.username != row.username) ++ [row]

/-- Row collections reachable by the Row Aggregator: it starts from the
empty collection (App.tsx line 42) and is mutated only through
`handleRowComputed`. -/
inductive Reachable : List Row → Prop where
  | nil : Reachable []
  | step (row : Row) (s : List Row) : Reachable s →
      Reachable (handleRowComputed row s)

/-- The `latestStatus` memo (App.tsx lines 148-157): the empty map while
the per-student fetch is absent or loading; otherwise, for each exercise
name of the fetched mapping, the entry `exercises.at(-1)!`. The
TypeScript `!` assertion has no runtime effect, so an empty sequence
stores `undefined`, embedded as `none`. -/
def latestStatus
    (studentProgress : Option (List (String × List StudentExercise)))
    (isStudentProgressLoading : Bool) :
    List (String × Option StudentExercise) :=
  match studentProgress, isStudentProgressLoading with
  | some m, false => m.map (fun p => (p.1, p.2.getLast?))
  | _, _ => []

/-- The status-extraction chain
`latestStatus.get(name)?.exerciseProgress?.status ?? ""` (App.tsx lines
179-180 and 196-198): `Map.get` yields `undefined` both for an absent key
and for a key stored with value `undefined`, hence the `Option.join`. -/
def statusFor (latest : List (String × Option StudentExercise))
    (name : String) : String :=
  ((((latest.lookup name).join).bind
      (fun se => se.exerciseProgress)).bind
    (fun p => p.status)).getD ""

/-- The row computed for one student (App.tsx lines 175-183): for each
filtered exercise, the raw status string (empty where absent). -/
def computeRow (student : Student) (filteredExs : List Exercise)
    (latest : List (String × Option StudentExercise)) : Row :=
  { username := student.username
    statuses := filteredExs.map (fun ex =>
      (ex.exercise_name, some (statusFor latest ex.exercise_name))) }

/-- The `getEmoji` switch (App.tsx lines 159-173): a JavaScript `switch`
with fall-through pairs is a chain of sequential equality tests. -/
def getEmoji (status : Option String) : String :=
  if status = some "SUCCESSFUL" ∨ status = some "Completed" then "✅"
  else if status = some "UNSUCCESSFUL" ∨ status = some "Incomplete" then "❌"
  else if status = some "ERROR" ∨ status = some "Error" then "⚠️"
  else ""

/-- JavaScript `Array.prototype.join(sep)`: empty string on the empty
array, the sole element on a singleton, otherwise the elements with `sep`
between consecutive elements. -/
def joinSep (sep : String) : List String → String
  | [] => ""
  | [a] => a
  | a :: b :: t => a ++ sep ++ joinSep sep (b :: t)

/-- The record read `row.statuses[name] ?? ""` (App.tsx line 67): an
absent key and a key present with `undefined` both yield `""`. -/
def recordGetOrEmpty (statuses : List (String × Option String))
    (name : String) : String :=
  ((statuses.lookup name).join).getD ""

/-- The `downloadCSV` callback (App.tsx lines 58-82), modelled up to the
produced text: `none` when the early return fires on an empty row
collection (no blob, no anchor, no download), otherwise `some` of the
exact string handed to the `Blob`. -/
def downloadCSV (tableData : List Row) (filteredExs : List Exercise) :
    Option String :=
  if tableData.length = 0 then none
  else
    let headers :=
      "Github Username" :: filteredExs.map (fun e => e.exercise_name)
    let rows := tableData.map (fun row =>
      row.username :: filteredExs.map (fun ex =>
        recordGetOrEmpty row.statuses ex.exercise_name))
    some (joinSep "," headers ++ "\n" ++
      joinSep "\n" (rows.map (fun r => joinSep "," r)))

/-- Follows the spec's words for the Snapshot Exporter's first line: the
fixed identity-column label followed by each exercise name, in column
order, joined by single commas. -/
def headerLineSpec (columns : List Exercise) : String :=
  joinSep "," ("Github Username" :: columns.map (fun e => e.exercise_name))

/-- Follows the spec's words for one exported row: the row's username
followed by that row's raw status per column (empty string where absent),
in column order, joined by single commas, with no quoting or escaping. -/
def rowLineSpec (row : Row) (columns : List Exercise) : String :=
  joinSep "," (row.username :: columns.map (fun ex =>
    recordGetOrEmpty row.statuses ex.exercise_name))

/-- Follows the spec's words for the whole exported document: the header
line, then one line per aggregated row, delimited by newlines. -/
def csvSpec (tableData : List Row) (columns : List Exercise) : String :=
  joinSep "\n"
    (headerLineSpec columns :: tableData.map (fun row => rowLineSpec row columns))

theorem lookup_map_snd {α β : Type} (m : List (String × α)) (f : α → β)
    (name : String) :
    (m.map (fun p => (p.1, f p.2))).lookup name = (m.lookup name).map f := by
  induction m with
  | nil => rfl
  | cons p t ih =>
    cases hp : name == p.1 <;> simp [List.lookup, hp, ih]

theorem joinSep_cons_of_ne_nil (sep a : String) {l : List String}
    (h : l ≠ []) : joinSep sep (a :: l) = a ++ sep ++ joinSep sep l := by
  cases l with
  | nil => exact absurd rfl h
  | cons b t => rfl

theorem Reachable.countP_le_one {s : List Row} (h : Reachable s)
    (u : String) : s.countP (fun r => r.username == u) ≤ 1 := by
  induction h with
  | nil => simp
  | step row t _ ih =>
    unfold handleRowComputed
    rw [List.countP_append]
    by_cases hu : row.username = u
    · have h0 : (t.filter (fun r => r.username != row.username)).countP
          (fun r => r.username == u) = 0 := by
        rw [List.countP_eq_zero]
        intro a ha
        have hne : a.username ≠ row.username := by
          simpa using (List.mem_filter.mp ha).2
        simpa [hu] using hne
      have h1 : List.countP (fun r => r.username == u) [row] = 1 := by
        simp [List.countP_cons, hu]
      omega
    · have h1 : List.countP (fun r => r.username == u) [row] = 0 := by
        simp [List.countP_cons, hu]
      have h2 : (t.filter (fun r => r.username != row.username)).countP
          (fun r => r.username == u) ≤ t.countP (fun r => r.username == u) :=
        (List.filter_sublist t).countP_le _
      omega

/-- C1: the claim says an empty configured username allow-list makes the
Roster Filter include every fetched student. The code has no such guard:
with the empty allow-list the filtered student list is empty even though a
student was fetched, while a non-empty allow-list filters as specified. -/
theorem filteredStudents_c1_failing :
    filteredStudents (some [⟨1, "ann"⟩]) false [] = []
    ∧ filteredStudents (some [⟨1, "ann"⟩]) false ["ann"] = [⟨1, "ann"⟩] := by
  constructor <;> rfl

/-- C3: with a ready fetch, the filtered exercise list is exactly the
fetched list when the allow-list is empty and exactly the fetched
exercises whose name is in the allow-list otherwise (as a permutation),
and it is sorted ascending by exercise name. -/
theorem filteredExercises_c3 (all : List Exercise) (EXERCISES : List String) :
    (filteredExercises (some all) false EXERCISES).Perm
      (if EXERCISES = [] then all
       else all.filter (fun e => EXERCISES.contains e.exercise_name))
    ∧ (filteredExercises (some all) false EXERCISES).Sorted exerciseLe := by
  have hsorted : (filteredExercises (some all) false EXERCISES).Sorted exerciseLe := by
    show (List.insertionSort exerciseLe _).Sorted exerciseLe
    exact List.sorted_insertionSort exerciseLe _
  refine ⟨?_, hsorted⟩
  by_cases h : EXERCISES = []
  · simp only [filteredExercises, filteredExercisesCore, h, List.length_nil,
      if_pos rfl, if_true]
    exact List.perm_insertionSort exerciseLe all
  · have hlen : ¬ EXERCISES.length = 0 := by
      simpa [List.length_eq_zero] using h
    simp only [filteredExercises, filteredExercisesCore, if_neg hlen, if_neg h]
    exact List.perm_insertionSort exerciseLe _

/-- C4: upserting a computed row into any reachable row collection leaves
at most one row per username, and every previously stored row of a
different username is still present (hence unchanged, rows being values). -/
theorem handleRowComputed_c4 (s : List Row) (row : Row) (h : Reachable s) :
    (∀ u, (handleRowComputed row s).countP (fun r => r.username == u) ≤ 1)
    ∧ ∀ q ∈ s, q.username ≠ row.username → q ∈ handleRowComputed row s := by
  constructor
  · intro u
    exact (Reachable.step row s h).countP_le_one u
  · intro q hq hne
    unfold handleRowComputed
    refine List.mem_append_left _ (List.mem_filter.mpr ⟨hq, ?_⟩)
    simpa using hne

theorem handleRowComputed_c4_witness :
    (handleRowComputed ⟨"ann", []⟩ []).countP (fun r => r.username == "bob") ≤ 1 :=
  (handleRowComputed_c4 [] ⟨"ann", []⟩ Reachable.nil).1 "bob"

/-- C5: the Row Aggregator upsert is idempotent — applying the same
computed row twice equals applying it once — and the result holds exactly
one row for that username. -/
theorem handleRowComputed_c5 (s : List Row) (row : Row) :
    handleRowComputed row (handleRowComputed row s) = handleRowComputed row s
    ∧ (handleRowComputed row s).countP (fun r => r.username == row.username) = 1 := by
  constructor
  · unfold handleRowComputed
    rw [List.filter_append, List.filter_filter]
    simp
  · unfold handleRowComputed
    rw [List.countP_append]
    have h0 : (s.filter (fun r => r.username != row.username)).countP
        (fun r => r.username == row.username) = 0 := by
      rw [List.countP_eq_zero]
      intro a ha
      simpa using (List.mem_filter.mp ha).2
    simp [h0, List.countP_cons]

/-- C8: with an empty aggregated row collection the Snapshot Exporter is a
no-op — the early return fires before any document, blob or anchor is
produced. -/
theorem downloadCSV_c8 (filteredExs : List Exercise) :
    downloadCSV [] filteredExs = none := rfl

/-- C9: the claim says the Roster Filter never mutates its inputs. The
in-place sort falsifies it: with an empty exercise allow-list the fetched
array `[b, a]` is the very array sorted, so after the filter it reads
`[a, b]`, not its original contents. -/
theorem rosterFilter_c9_mutation :
    allExercisesAfterFilter (some [⟨"b"⟩, ⟨"a"⟩]) false [] = some [⟨"a"⟩, ⟨"b"⟩]
    ∧ allExercisesAfterFilter (some [⟨"b"⟩, ⟨"a"⟩]) false [] ≠ some [⟨"b"⟩, ⟨"a"⟩] := by
  have h : allExercisesAfterFilter (some [⟨"b"⟩, ⟨"a"⟩]) false []
      = some [⟨"a"⟩, ⟨"b"⟩] := by
    simp [allExercisesAfterFilter, filteredExercisesCore, List.insertionSort,
      List.orderedInsert, exerciseLe]
    decide
  refine ⟨h, ?_⟩
  rw [h]
  decide

/-- C2: with a ready fetch, the Progress Resolver maps each exercise name
whose sequence is non-empty to that sequence's last element, yields no
entry for a name absent from the mapping, and is the empty mapping
whenever the fetch is loading or its data absent (the embedding is a total
function, so no throw occurs). -/
theorem latestStatus_c2 (m : List (String × List StudentExercise))
    (name : String) :
    (∀ exs (hne : exs ≠ []), m.lookup name = some exs →
      (latestStatus (some m) false).lookup name = some (some (exs.getLast hne)))
    ∧ (m.lookup name = none → (latestStatus (some m) false).lookup name = none)
    ∧ (∀ b, latestStatus none b = [])
    ∧ (∀ p, latestStatus p true = []) := by
  refine ⟨?_, ?_, ?_, ?_⟩
  · intro exs hne hm
    show (m.map (fun p => (p.1, p.2.getLast?))).lookup name = _
    rw [lookup_map_snd, hm]
    simp [List.getLast?_eq_getLast exs hne]
  · intro hm
    show (m.map (fun p => (p.1, p.2.getLast?))).lookup name = none
    rw [lookup_map_snd, hm]
    rfl
  · intro b
    cases b <;> rfl
  · intro p
    cases p <;> rfl

theorem latestStatus_c2_witness :
    (latestStatus
        (some [("loops", [⟨some ⟨some "UNSUCCESSFUL"⟩⟩, ⟨some ⟨some "SUCCESSFUL"⟩⟩])])
        false).lookup "loops"
      = some (some ⟨some ⟨some "SUCCESSFUL"⟩⟩) := by
  have h := (latestStatus_c2
      [("loops", [⟨some ⟨some "UNSUCCESSFUL"⟩⟩, ⟨some ⟨some "SUCCESSFUL"⟩⟩])]
      "loops").1
    [⟨some ⟨some "UNSUCCESSFUL"⟩⟩, ⟨some ⟨some "SUCCESSFUL"⟩⟩] (by simp) (by rfl)
  exact h

/-- C6: the Status Presenter is a total function: both spellings of
success, failure and error map to their symbols, and anything else —
absent input, the empty string, an unknown word — maps to the blank
symbol. -/
theorem getEmoji_c6 (s : String)
    (h : s ∉ (["SUCCESSFUL", "Completed", "UNSUCCESSFUL", "Incomplete",
      "ERROR", "Error"] : List String)) :
    getEmoji (some "SUCCESSFUL") = "✅" ∧ getEmoji (some "Completed") = "✅"
    ∧ getEmoji (some "UNSUCCESSFUL") = "❌" ∧ getEmoji (some "Incomplete") = "❌"
    ∧ getEmoji (some "ERROR") = "⚠️" ∧ getEmoji (some "Error") = "⚠️"
    ∧ getEmoji none = "" ∧ getEmoji (some "") = ""
    ∧ getEmoji (some "WHATEVER") = "" ∧ getEmoji (some s) = "" := by
  have h' : s ≠ "SUCCESSFUL" ∧ s ≠ "Completed" ∧ s ≠ "UNSUCCESSFUL"
      ∧ s ≠ "Incomplete" ∧ s ≠ "ERROR" ∧ s ≠ "Error" := by
    simpa [not_or] using h
  obtain ⟨h1, h2, h3, h4, h5, h6⟩ := h'
  refine ⟨by decide, by decide, by decide, by decide, by decide, by decide,
    by decide, by decide, by decide, ?_⟩
  simp [getEmoji, h1, h2, h3, h4, h5, h6]

theorem getEmoji_c6_witness :
    getEmoji (some "SUCCESSFUL") = "✅" ∧ getEmoji (some "Completed") = "✅"
    ∧ getEmoji (some "UNSUCCESSFUL") = "❌" ∧ getEmoji (some "Incomplete") = "❌"
    ∧ getEmoji (some "ERROR") = "⚠️" ∧ getEmoji (some "Error") = "⚠️"
    ∧ getEmoji none = "" ∧ getEmoji (some "") = ""
    ∧ getEmoji (some "WHATEVER") = "" ∧ getEmoji (some "xyz") = "" :=
  getEmoji_c6 "xyz" (by decide)

/-- C7: with a non-empty row collection, the Snapshot Exporter emits
exactly the document the spec describes — the identity-column label and
the exercise names as the first line, then one line per row with the raw
status per column (empty where absent), fields joined by single commas
with no quoting or escaping, lines delimited by newlines. -/
theorem downloadCSV_c7 (tableData : List Row) (filteredExs : List Exercise)
    (h : tableData ≠ []) :
    downloadCSV tableData filteredExs = some (csvSpec tableData filteredExs) := by
  have hlen : ¬ tableData.length = 0 := by
    simpa [List.length_eq_zero] using h
  have hmap : List.map (fun row => joinSep ","
      (row.username :: List.map (fun ex =>
        recordGetOrEmpty row.statuses ex.exercise_name) filteredExs))
      tableData ≠ [] := by
    simpa using h
  simp only [downloadCSV, csvSpec, headerLineSpec, rowLineSpec]
  rw [if_neg hlen]
  rw [joinSep_cons_of_ne_nil "\n" _ hmap]
  rw [List.map_map]
  rfl

theorem downloadCSV_c7_witness :
    downloadCSV [⟨"ann", [("arrays", some ""), ("loops", some "SUCCESSFUL")]⟩]
      [⟨"arrays"⟩, ⟨"loops"⟩]
    = some "Github Username,arrays,loops\nann,,SUCCESSFUL" := by
  have h := downloadCSV_c7
    [⟨"ann", [("arrays", some ""), ("loops", some "SUCCESSFUL")]⟩]
    [⟨"arrays"⟩, ⟨"loops"⟩] (by simp)
  exact h.trans (by rfl)

/-- C10: an exercise whose fetched sequence is empty (and likewise one
absent from the mapping) produces the empty-string status — no throw, the
`at(-1)!` of an empty sequence being `undefined` — and the computed row
records the empty string for that exercise, which the Status Presenter
renders as the blank symbol. -/
theorem studentRow_c10 (m : List (String × List StudentExercise))
    (name : String) (student : Student) (filteredExs : List Exercise)
    (h : m.lookup name = some [] ∨ m.lookup name = none) :
    statusFor (latestStatus (some m) false) name = ""
    ∧ getEmoji (some (statusFor (latestStatus (some m) false) name)) = ""
    ∧ ∀ e ∈ filteredExs, e.exercise_name = name →
        (name, some "") ∈
          (computeRow student filteredExs (latestStatus (some m) false)).statuses := by
  have hs : statusFor (latestStatus (some m) false) name = "" := by
    show (((((m.map (fun p => (p.1, p.2.getLast?))).lookup name).join).bind
        (fun se => se.exerciseProgress)).bind (fun p => p.status)).getD "" = ""
    rw [lookup_map_snd]
    rcases h with h | h <;> simp [h]
  refine ⟨hs, by rw [hs]; decide, ?_⟩
  intro e he hname
  refine List.mem_map.mpr ⟨e, he, ?_⟩
  show (e.exercise_name,
      some (statusFor (latestStatus (some m) false) e.exercise_name))
    = (name, some "")
  rw [hname, hs]

theorem studentRow_c10_witness :
    statusFor (latestStatus (some [("loops", ([] : List StudentExercise))]) false)
      "loops" = "" :=
  (studentRow_c10 [("loops", [])] "loops" ⟨1, "ann"⟩ [⟨"loops"⟩]
    (Or.inl (by rfl))).1
